import Mathlib

/-!
Shallow embedding of the slip39-dotmap converter core.

The embedded code lives in `src/converter/lib/DotPattern.js` (classes
`DotPattern` and `Validator`) and `src/converter/lib/Converter.js` (class
`Converter`).  JavaScript strings are modelled as Lean `String`
(`String.data` giving the character sequence), JavaScript numbers that can
only hold integers or NaN are modelled by `JSNum`, thrown exceptions by
`Except String`, and the untyped argument of `Validator.validateBinary` by
the sum type `JSVal`.
-/

/-- Value of a binary numeral, models `parseInt(binary, 2)` as applied to a
string that only contains the characters 0 and 1 (both call sites check or
produce exactly that alphabet before parsing). -/
def parseBin (l : List Char) : Nat :=
  l.foldl (fun acc c => acc * 2 + (if c = '1' then 1 else 0)) 0

/-- Digit loop of `Number.prototype.toString(2)` for a nonnegative integer:
most significant digit first, no output for 0.  The first argument is fuel
bounding the recursion depth; the number halves at every step, so fuel `n`
is more than enough for input `n` (see `binDigits`). -/
def binDigitsAux : Nat → Nat → List Char
  | 0, _ => []
  | _ + 1, 0 => []
  | fuel + 1, n + 1 =>
    binDigitsAux fuel ((n + 1) / 2) ++ [if (n + 1) % 2 = 1 then '1' else '0']

/-- Binary digits of `n`, most significant first; empty for 0. -/
def binDigits (n : Nat) : List Char := binDigitsAux n n

/-- Models `n.toString(2)` for a nonnegative integer `n`: JavaScript renders
0 as the single digit "0". -/
def jsToString2 (n : Nat) : List Char := if n = 0 then ['0'] else binDigits n

/-- Models `String.prototype.padStart(target, c)`: when the string is
shorter than `target`, copies of `c` are prepended up to that length;
longer strings are returned unchanged (here `target - s.length` is
truncated natural subtraction, hence 0 in that case). -/
def padStart (target : Nat) (c : Char) (s : List Char) : List Char :=
  List.replicate (target - s.length) c ++ s

/-- A live `DotPattern` instance (`DotPattern.js`): its only data field is
the stored index.  The cache fields `_binary`, `_dots`, `_columns` are pure
memoization of the accessors below and carry no further information, so
they are not modelled. -/
structure DotPattern where
  index : Int
deriving DecidableEq, Repr

/-- The `DotPattern` constructor (`DotPattern.js` lines 22-30): throws when
`index < 1 || index > 1024`, otherwise stores the index. -/
def DotPattern.fromIndex (index : Int) : Except String DotPattern :=
  if index < 1 ∨ index > 1024 then
    .error s!"Index {index} out of SLIP39 range (1-1024)"
  else
    .ok ⟨index⟩

/-- `DotPattern.prototype.toBinary` (`DotPattern.js` lines 65-70):
`this.index.toString(2).padStart(12, '0')`. -/
def DotPattern.toBinary (p : DotPattern) : String :=
  ⟨padStart 12 '0' (jsToString2 p.index.toNat)⟩

/-- `DotPattern.prototype.toBitArray` (`DotPattern.js` lines 78-80): the
characters of `toBinary` mapped through `parseInt`; every character is 0 or
1, on which `parseInt` yields the digit value. -/
def DotPattern.toBitArray (p : DotPattern) : List Nat :=
  p.toBinary.data.map (fun c => if c = '1' then 1 else 0)

/-- `DotPattern.prototype.toDots` (`DotPattern.js` lines 122-128): each
binary character mapped to ● for '1' and ○ otherwise. -/
def DotPattern.toDots (p : DotPattern) : String :=
  ⟨p.toBinary.data.map (fun c => if c = '1' then '●' else '○')⟩

/-- `DotPattern.prototype.toColumns` (`DotPattern.js` lines 92-102): the
dot string sliced with `substring(0,4)`, `substring(4,8)`, `substring(8,12)`. -/
def DotPattern.toColumns (p : DotPattern) : List String :=
  [⟨p.toDots.data.take 4⟩, ⟨(p.toDots.data.drop 4).take 4⟩,
    ⟨(p.toDots.data.drop 8).take 4⟩]

/-- `DotPattern.prototype.toDisplayString` (`DotPattern.js` lines 110-113):
the columns joined with a single space. -/
def DotPattern.toDisplayString (p : DotPattern) : String :=
  String.intercalate " " p.toColumns

/-- The character-translation loop inside `DotPattern.fromDots`
(`DotPattern.js` lines 49-53): ● becomes '1', ○ becomes '0', and the first
other character aborts the whole map by throwing (the `.map` callback runs
left to right, so the leftmost invalid character is the one reported). -/
def dotsToBinary : List Char → Except Char (List Char)
  | [] => .ok []
  | c :: rest =>
    if c = '●' then (dotsToBinary rest).map (fun l => '1' :: l)
    else if c = '○' then (dotsToBinary rest).map (fun l => '0' :: l)
    else .error c

/-- `DotPattern.fromDots` (`DotPattern.js` lines 44-56): strips all
whitespace (`replace(/\s/g, '')`), checks the cleaned length is 12,
translates dots to binary characters, parses the result base 2 and
delegates to the constructor. -/
def DotPattern.fromDots (dotString : String) : Except String DotPattern :=
  let cleanDots := dotString.data.filter (fun c => !c.isWhitespace)
  if cleanDots.length ≠ 12 then
    .error s!"Dot string must be 12 characters long, got {cleanDots.length}"
  else
    match dotsToBinary cleanDots with
    | .error c => .error s!"Invalid dot character: {c}. Use ● or ○"
    | .ok binary => DotPattern.fromIndex (parseBin binary)

/-- Decoded value of a dot string after whitespace stripping, ● read as 1
and ○ as 0; this is the integer that `DotPattern.fromDots` hands to the
constructor on a well-formed dot string. -/
def dotsDecodedValue (s : String) : Int :=
  (parseBin ((s.data.filter (fun c => !c.isWhitespace)).map
    (fun c => if c = '●' then '1' else '0')) : Nat)

/-- Result object of `Validator.validateBinary` (`DotPattern.js` lines
160-202): JavaScript `null` in the `error` and `index` slots is modelled
by `none`. -/
structure ValidationResult where
  isValid : Bool
  error : Option String
  index : Option Int
deriving DecidableEq, Repr

/-- Untyped JavaScript value passed to `Validator.validateBinary`; the
constructors cover the value classes the function distinguishes (a string
versus any non-string: number, boolean, null, undefined). -/
inductive JSVal where
  | str (s : String)
  | num (n : Int)
  | boolean (b : Bool)
  | null
  | undefined
deriving DecidableEq, Repr

/-- `Validator.validateBinary` (`DotPattern.js` lines 160-202).  The first
guard `!binary || typeof binary !== 'string'` rejects every non-string
value (falsy or wrong typeof) and the empty string, always with the same
message; the remaining checks run in source order: length 12, binary
alphabet (`/^[01]+$/`), then `parseInt(binary, 2)` is computed, first
character not '1', and value within [1,1024]. -/
def Validator.validateBinary (binary : JSVal) : ValidationResult :=
  match binary with
  | .str s =>
    if s = "" then
      ⟨false, some "Binary must be a non-empty string", none⟩
    else if s.length ≠ 12 then
      ⟨false, some s!"Binary must be 12 bits long, got {s.length}", none⟩
    else if ! s.data.all (fun c => c == '0' || c == '1') then
      ⟨false, some "Binary string must contain only 0 and 1", none⟩
    else
      let index : Int := (parseBin s.data : Nat)
      if s.data.head? == some '1' then
        ⟨false, some "First bit must be 0 for SLIP39", some index⟩
      else if index < 1 ∨ index > 1024 then
        ⟨false, some s!"Index {index} out of SLIP39 range (1-1024)", some index⟩
      else
        ⟨true, none, some index⟩
  | _ => ⟨false, some "Binary must be a non-empty string", none⟩

/-- A JavaScript number as stored in the reverse wordlist: an integer or
NaN (`parseInt` of a key with no leading digits). -/
inductive JSNum where
  | int (i : Int)
  | nan
deriving DecidableEq, Repr

/-- Value of a list of decimal digit characters. -/
def decDigitsVal (l : List Char) : Nat :=
  l.foldl (fun acc c => acc * 10 + (c.toNat - 48)) 0

/-- Models `parseInt(key)` on an object key string: an optional sign
followed by the longest prefix of decimal digits; NaN when that prefix is
empty.  (The hexadecimal and whitespace fringes of `parseInt` cannot arise
from the digit keys the wordlist uses and are not modelled.) -/
def jsParseInt (s : String) : JSNum :=
  match s.data with
  | '-' :: rest =>
    let ds := rest.takeWhile Char.isDigit
    if ds.isEmpty then .nan else .int (-(decDigitsVal ds : Nat))
  | l =>
    let rest := if l.head? == some '+' then l.tail else l
    let ds := rest.takeWhile Char.isDigit
    if ds.isEmpty then .nan else .int (decDigitsVal ds : Nat)

/-- Models `String.prototype.toLowerCase` on the ASCII words of the
wordlist: each character lower-cased individually. -/
def jsToLowerCase (s : String) : String := ⟨s.data.map Char.toLower⟩

/-- Property names every plain object literal inherits from
`Object.prototype`; reading one of these keys on the reverse table when no
own entry shadows it yields the inherited function (or, for `__proto__`,
the prototype object) instead of `undefined`. -/
def objectPrototypeKeys : List String :=
  ["constructor", "hasOwnProperty", "isPrototypeOf", "propertyIsEnumerable",
   "toLocaleString", "toString", "valueOf", "__proto__", "__defineGetter__",
   "__defineSetter__", "__lookupGetter__", "__lookupSetter__"]

/-- Outcome of a property read on the reverse table: an own entry (a
number), an inherited `Object.prototype` member (a function or the
prototype object — truthy and non-numeric), or `undefined`. -/
inductive JSProp where
  | num (v : JSNum)
  | inherited
  | undefined
deriving DecidableEq, Repr

/-- Property assignment `m[k] = v` on a plain JavaScript object: an
existing own key keeps its place with the new value, a new key is
appended.  Assigning to the key `__proto__` invokes the inherited
`Object.prototype` setter instead, which silently ignores the non-object
number `parseInt` produces, so no own property is created. -/
def objSet (m : List (String × JSNum)) (k : String) (v : JSNum) :
    List (String × JSNum) :=
  if k == "__proto__" then m
  else if m.any (fun p => p.1 == k) then
    m.map (fun p => if p.1 == k then (k, v) else p)
  else m ++ [(k, v)]

/-- Property read `m[k]` on a plain JavaScript object: an own entry wins,
otherwise the `Object.prototype` chain is consulted, and only a key found
nowhere yields `undefined`. -/
def objGet (m : List (String × JSNum)) (k : String) : JSProp :=
  match m.find? (fun p => p.1 == k) with
  | some p => .num p.2
  | none => if objectPrototypeKeys.contains k then .inherited else .undefined

/-- `Converter.prototype.buildReverseWordlist` (`Converter.js` lines
37-43): iterates `Object.entries(wordlist)` in order and assigns
`reverse[word.toLowerCase()] = parseInt(index)`. -/
def buildReverseWordlist (wordlist : List (String × String)) :
    List (String × JSNum) :=
  wordlist.foldl (fun reverse kv => objSet reverse (jsToLowerCase kv.2) (jsParseInt kv.1)) []

/-- A `Converter` instance: the wordlist object (entries of index-key and
word) and the reverse table built from it. -/
structure Converter where
  wordlist : List (String × String)
  reverseWordlist : List (String × JSNum)
deriving DecidableEq, Repr

/-- The `Converter` constructor (`Converter.js` lines 22-25): stores the
wordlist and builds the reverse table.  It performs no validation of any
kind, so it is total: no emptiness or shape check appears in the source. -/
def Converter.construct (wordlist : List (String × String)) : Converter :=
  ⟨wordlist, buildReverseWordlist wordlist⟩

/-- Return object of `Converter.prototype.convertWordToDots` on the
normal path: word, numeric index and the three renderings. -/
structure ConversionEntry where
  word : String
  index : Int
  binary : String
  dots : String
  columns : List String
deriving DecidableEq, Repr

/-- A successful return value of `convertWordToDots`.  The `inherited`
case models the object returned when the lookup hits an inherited
`Object.prototype` member: `!index` is false for that truthy value, and in
`new DotPattern(index)` both range comparisons coerce the function or
object to NaN and are false, so nothing throws and the call returns an
object whose `index` is the inherited value and whose binary, dots and
columns are host stringifications of it; none of those fields is
determined by the repository sources, so only the word and the fact of a
non-throwing success are modelled. -/
inductive ConversionResult where
  | entry (e : ConversionEntry)
  | inherited (word : String)
deriving DecidableEq, Repr

/-- `Converter.prototype.convertWordToDots` (`Converter.js` lines
111-124): looks the lower-cased word up in the reverse table; the guard
`if (!index)` treats `undefined` (key found nowhere), NaN and 0 all as
"not found"; an inherited `Object.prototype` value is truthy, passes the
guard and yields a non-throwing garbage conversion (see
`ConversionResult`); otherwise `new DotPattern(index)` may still throw a
range error, which propagates. -/
def Converter.convertWordToDots (c : Converter) (word : String) :
    Except String ConversionResult :=
  match objGet c.reverseWordlist (jsToLowerCase word) with
  | .undefined => .error s!"Word \"{word}\" not found in SLIP39 wordlist"
  | .num .nan => .error s!"Word \"{word}\" not found in SLIP39 wordlist"
  | .num (.int i) =>
    if i = 0 then .error s!"Word \"{word}\" not found in SLIP39 wordlist"
    else
      match DotPattern.fromIndex i with
      | .error e => .error e
      | .ok p => .ok (.entry ⟨word, i, p.toBinary, p.toDots, p.toColumns⟩)
  | .inherited => .ok (.inherited word)

/-- One error entry of a batch conversion. -/
structure BatchError where
  position : Nat
  word : String
  error : String
deriving DecidableEq, Repr

/-- Result object of `Converter.prototype.convertWithValidation`. -/
structure BatchResult where
  isValid : Bool
  wordCount : Nat
  words : List String
  patterns : List ConversionResult
  errors : List BatchError
deriving DecidableEq, Repr

/-- Body of the `forEach` callback in `convertWithValidation`
(`Converter.js` lines 76-89), acting on the accumulated result: success
appends the word and its conversion, failure flips `isValid` and appends a
positional error entry (position is the 0-based loop index plus 1). -/
def convertStep (c : Converter) (r : BatchResult) (iw : Nat × String) : BatchResult :=
  match c.convertWordToDots iw.2 with
  | .ok conversion =>
    { r with words := r.words ++ [iw.2], patterns := r.patterns ++ [conversion] }
  | .error msg =>
    { r with isValid := false, errors := r.errors ++ [⟨iw.1 + 1, iw.2, msg⟩] }

/-- Models `String.prototype.trim` on the character list: whitespace
removed from both ends. -/
def jsTrim (l : List Char) : List Char :=
  ((l.dropWhile Char.isWhitespace).reverse.dropWhile Char.isWhitespace).reverse

/-- Models `mnemonic.trim().split(/\s+/)`: trimming the empty (or
all-whitespace) string leaves the empty string, which `split` returns as
the single-element array `[""]`; a nonempty trimmed string starts and ends
with non-whitespace, on which splitting at runs of whitespace yields
exactly the maximal whitespace-free tokens, here obtained by splitting at
every whitespace character and discarding the empty pieces that adjacent
separators leave behind. -/
def jsTrimSplit (s : String) : List String :=
  let t := jsTrim s.data
  if t.isEmpty then [""]
  else ((t.splitOnP Char.isWhitespace).filter (fun w => !w.isEmpty)).map
    (fun l => (⟨l⟩ : String))

/-- `Converter.prototype.convertWithValidation` (`Converter.js` lines
67-91): an array argument is used as is, a string argument is trimmed and
split on whitespace; the result starts as
`{isValid: true, wordCount: words.length, words: [], patterns: [], errors: []}`
and every word is processed in order by `convertStep`. -/
def Converter.convertWithValidation (c : Converter) (mnemonic : String ⊕ List String) :
    BatchResult :=
  let words := match mnemonic with
    | .inr arr => arr
    | .inl s => jsTrimSplit s
  (words.enum).foldl (convertStep c) ⟨true, words.length, [], [], []⟩

/-! ### Arithmetic facts about the binary codec helpers -/

theorem parseBin_cons_zero (l : List Char) : parseBin ('0' :: l) = parseBin l := by
  simp [parseBin]

theorem parseBin_append_one (l : List Char) (c : Char) :
    parseBin (l ++ [c]) = parseBin l * 2 + (if c = '1' then 1 else 0) := by
  simp [parseBin, List.foldl_append]

theorem parseBin_replicate_zero (k : Nat) (l : List Char) :
    parseBin (List.replicate k '0' ++ l) = parseBin l := by
  induction k with
  | zero => simp
  | succ k ih =>
    rw [List.replicate_succ, List.cons_append, parseBin_cons_zero]
    exact ih

theorem parseBin_binDigitsAux (fuel : Nat) :
    ∀ n, n ≤ fuel → parseBin (binDigitsAux fuel n) = n := by
  induction fuel with
  | zero =>
    intro n hn
    have : n = 0 := by omega
    subst this
    rfl
  | succ fuel ih =>
    intro n hn
    match n with
    | 0 => rfl
    | n + 1 =>
      rw [binDigitsAux, parseBin_append_one, ih ((n + 1) / 2) (by omega)]
      by_cases h2 : (n + 1) % 2 = 1
      · rw [if_pos h2, if_pos rfl]
        omega
      · rw [if_neg h2, if_neg (by decide)]
        omega

theorem length_binDigitsAux (fuel : Nat) :
    ∀ n k, n ≤ fuel → n < 2 ^ k → (binDigitsAux fuel n).length ≤ k := by
  induction fuel with
  | zero =>
    intro n k hn _
    have : n = 0 := by omega
    subst this
    simp [binDigitsAux]
  | succ fuel ih =>
    intro n k hn hk
    match n with
    | 0 => simp [binDigitsAux]
    | n + 1 =>
      match k with
      | 0 => norm_num at hk
      | k + 1 =>
        have hdiv : (n + 1) / 2 < 2 ^ k := by
          rw [Nat.div_lt_iff_lt_mul (by norm_num)]
          calc n + 1 < 2 ^ (k + 1) := hk
            _ = 2 ^ k * 2 := by ring
        have hrec := ih ((n + 1) / 2) k (by omega) hdiv
        rw [binDigitsAux, List.length_append]
        simp only [List.length_singleton]
        omega

theorem mem_binDigitsAux (fuel : Nat) :
    ∀ n c, c ∈ binDigitsAux fuel n → c = '0' ∨ c = '1' := by
  induction fuel with
  | zero =>
    intro n c hc
    simp [binDigitsAux] at hc
  | succ fuel ih =>
    intro n c hc
    match n with
    | 0 => simp [binDigitsAux] at hc
    | n + 1 =>
      rw [binDigitsAux, List.mem_append] at hc
      rcases hc with hc | hc
      · exact ih _ _ hc
      · rw [List.mem_singleton] at hc
        subst hc
        by_cases h2 : (n + 1) % 2 = 1
        · rw [if_pos h2]; right; rfl
        · rw [if_neg h2]; left; rfl

/-! ### Behaviour of the pattern codec on valid indices -/

theorem fromIndex_ok (i : Int) (h1 : 1 ≤ i) (h2 : i ≤ 1024) :
    DotPattern.fromIndex i = .ok ⟨i⟩ := by
  rw [DotPattern.fromIndex, if_neg (by omega)]

theorem fromIndex_error (i : Int) (h : i < 1 ∨ i > 1024) :
    DotPattern.fromIndex i = .error s!"Index {i} out of SLIP39 range (1-1024)" := by
  rw [DotPattern.fromIndex, if_pos h]

theorem toBinary_spec (i : Int) (h1 : 1 ≤ i) (h2 : i ≤ 1024) :
    (DotPattern.mk i).toBinary.data.length = 12 ∧
    (∀ c ∈ (DotPattern.mk i).toBinary.data, c = '0' ∨ c = '1') ∧
    ((parseBin (DotPattern.mk i).toBinary.data : Nat) : Int) = i ∧
    (DotPattern.mk i).toBinary.data.head? = some '0' := by
  have hn1 : 1 ≤ i.toNat := by omega
  have hn2 : i.toNat ≤ 1024 := by omega
  have hdata : (DotPattern.mk i).toBinary.data =
      List.replicate (12 - (binDigits i.toNat).length) '0' ++ binDigits i.toNat := by
    show padStart 12 '0' (jsToString2 i.toNat) = _
    rw [jsToString2, if_neg (by omega)]
    rfl
  have hlen : (binDigits i.toNat).length ≤ 11 := by
    apply length_binDigitsAux i.toNat i.toNat 11 le_rfl
    calc i.toNat ≤ 1024 := hn2
      _ < 2 ^ 11 := by norm_num
  refine ⟨?_, ?_, ?_, ?_⟩
  · rw [hdata, List.length_append, List.length_replicate]
    omega
  · intro c hc
    rw [hdata, List.mem_append] at hc
    rcases hc with hc | hc
    · exact Or.inl (List.eq_of_mem_replicate hc)
    · exact mem_binDigitsAux i.toNat i.toNat c hc
  · rw [hdata, parseBin_replicate_zero, binDigits,
      parseBin_binDigitsAux i.toNat i.toNat le_rfl]
    omega
  · rw [hdata]
    obtain ⟨m, hm⟩ : ∃ m, 12 - (binDigits i.toNat).length = m + 1 :=
      ⟨11 - (binDigits i.toNat).length, by omega⟩
    rw [hm, List.replicate_succ]
    rfl

theorem dotsToBinary_map_bits (l : List Char) (h : ∀ c ∈ l, c = '0' ∨ c = '1') :
    dotsToBinary (l.map (fun c => if c = '1' then '●' else '○')) = .ok l := by
  induction l with
  | nil => rfl
  | cons c rest ih =>
    have hc := h c (List.mem_cons_self c rest)
    have hrest := ih (fun x hx => h x (List.mem_cons_of_mem _ hx))
    rcases hc with hc | hc <;> subst hc
    · rw [List.map_cons, if_neg (by decide), dotsToBinary,
        if_neg (by decide), if_pos rfl, hrest]
      rfl
    · rw [List.map_cons, if_pos rfl, dotsToBinary, if_pos rfl, hrest]
      rfl

theorem toDots_data (p : DotPattern) :
    p.toDots.data = p.toBinary.data.map (fun c => if c = '1' then '●' else '○') := rfl

theorem fromDots_toDots (i : Int) (h1 : 1 ≤ i) (h2 : i ≤ 1024) :
    DotPattern.fromDots (DotPattern.mk i).toDots = .ok ⟨i⟩ := by
  obtain ⟨hlen, hmem, hval, _⟩ := toBinary_spec i h1 h2
  have hclean : (DotPattern.mk i).toDots.data.filter (fun c => !c.isWhitespace) =
      (DotPattern.mk i).toDots.data := by
    rw [List.filter_eq_self]
    intro c hc
    rw [toDots_data, List.mem_map] at hc
    obtain ⟨b, hb, rfl⟩ := hc
    rcases hmem b hb with rfl | rfl <;> decide
  have hlen2 : (DotPattern.mk i).toDots.data.length = 12 := by
    rw [toDots_data, List.length_map]
    exact hlen
  have hne : ¬ ((DotPattern.mk i).toDots.data.length ≠ 12) := by
    rw [hlen2]
    decide
  have hbin : dotsToBinary ((DotPattern.mk i).toDots.data) =
      .ok ((DotPattern.mk i).toBinary.data) := by
    rw [toDots_data]
    exact dotsToBinary_map_bits _ hmem
  rw [DotPattern.fromDots]
  rw [hclean, if_neg hne, hbin]
  show DotPattern.fromIndex ((parseBin (DotPattern.mk i).toBinary.data : Nat) : Int) =
    .ok ⟨i⟩
  rw [hval]
  exact fromIndex_ok i h1 h2

theorem dotsToBinary_of_dots (l : List Char) (h : ∀ c ∈ l, c = '●' ∨ c = '○') :
    dotsToBinary l = .ok (l.map (fun c => if c = '●' then '1' else '0')) := by
  induction l with
  | nil => rfl
  | cons c rest ih =>
    have hc := h c (List.mem_cons_self c rest)
    have hrest := ih (fun x hx => h x (List.mem_cons_of_mem _ hx))
    rcases hc with rfl | rfl
    · rw [dotsToBinary, if_pos rfl, hrest, List.map_cons, if_pos rfl]
      rfl
    · rw [dotsToBinary, if_neg (by decide), if_pos rfl, hrest, List.map_cons,
        if_neg (by decide)]
      rfl

/-- C1: for every index in [1,1024], building a pattern from the index,
rendering it with `toDots` and re-parsing the dot string with `fromDots`
yields an instance whose `index` equals the original index. -/
theorem roundTrip_index (i : Int) (h1 : 1 ≤ i) (h2 : i ≤ 1024) :
    ((DotPattern.fromIndex i).bind (fun p => DotPattern.fromDots p.toDots)).map
      DotPattern.index = .ok i := by
  rw [fromIndex_ok i h1 h2]
  show (DotPattern.fromDots (DotPattern.mk i).toDots).map DotPattern.index = .ok i
  rw [fromDots_toDots i h1 h2]
  rfl

/-- Witness for C1, at index 754. -/
theorem roundTrip_index_witness :
    ((DotPattern.fromIndex 754).bind (fun p => DotPattern.fromDots p.toDots)).map
      DotPattern.index = .ok 754 :=
  roundTrip_index 754 (by decide) (by decide)

/-- C3: concrete scenarios; index 15 renders as binary "000000001111",
dots "○○○○○○○○●●●●" and columns ["○○○○","○○○○","●●●●"], and index 754 as
binary "001011110010", dots "○○●○●●●●○○●○" and columns
["○○●○","●●●●","○○●○"]. -/
theorem concrete_scenarios :
    (DotPattern.fromIndex 15).toOption.map DotPattern.toBinary = some "000000001111" ∧
    (DotPattern.fromIndex 15).toOption.map DotPattern.toDots = some "○○○○○○○○●●●●" ∧
    (DotPattern.fromIndex 15).toOption.map DotPattern.toColumns =
      some ["○○○○", "○○○○", "●●●●"] ∧
    (DotPattern.fromIndex 754).toOption.map DotPattern.toBinary = some "001011110010" ∧
    (DotPattern.fromIndex 754).toOption.map DotPattern.toDots = some "○○●○●●●●○○●○" ∧
    (DotPattern.fromIndex 754).toOption.map DotPattern.toColumns =
      some ["○○●○", "●●●●", "○○●○"] := by
  refine ⟨?_, ?_, ?_, ?_, ?_, ?_⟩ <;> decide

/-- C4: for every index in [1,1024], the pattern built from it has a
binary rendering whose first character is '0' and a dot rendering whose
first character is ○. -/
theorem leadingBit_invariant (i : Int) (h1 : 1 ≤ i) (h2 : i ≤ 1024) (p : DotPattern)
    (hp : DotPattern.fromIndex i = .ok p) :
    p.toBinary.data.head? = some '0' ∧ p.toDots.data.head? = some '○' := by
  rw [fromIndex_ok i h1 h2] at hp
  injection hp with hp
  subst hp
  obtain ⟨_, _, _, hhead⟩ := toBinary_spec i h1 h2
  refine ⟨hhead, ?_⟩
  rw [toDots_data, List.head?_map, hhead]
  rfl

/-- Witness for C4, at index 754. -/
theorem leadingBit_invariant_witness :
    (DotPattern.mk 754).toBinary.data.head? = some '0' ∧
    (DotPattern.mk 754).toDots.data.head? = some '○' :=
  leadingBit_invariant 754 (by decide) (by decide) ⟨754⟩ rfl

/-- C5: direct construction from any integer outside [1,1024] fails with
the range error naming that integer, and `fromDots` on a well-formed
12-dot string whose decoded value is 0 or above 1024 produces exactly the
result of direct integer construction from that value — hence the same
range error, not a different error kind. -/
theorem range_propagation :
    (∀ i : Int, (i < 1 ∨ i > 1024) →
      DotPattern.fromIndex i = .error s!"Index {i} out of SLIP39 range (1-1024)") ∧
    (∀ s : String,
      (s.data.filter (fun c => !c.isWhitespace)).length = 12 →
      (∀ c ∈ s.data.filter (fun c => !c.isWhitespace), c = '●' ∨ c = '○') →
      (dotsDecodedValue s = 0 ∨ dotsDecodedValue s > 1024) →
      DotPattern.fromDots s = DotPattern.fromIndex (dotsDecodedValue s)) := by
  constructor
  · exact fromIndex_error
  · intro s hlen hdots _
    have hne : ¬ ((s.data.filter (fun c => !c.isWhitespace)).length ≠ 12) := by
      rw [hlen]
      decide
    rw [DotPattern.fromDots, if_neg hne, dotsToBinary_of_dots _ hdots]
    rfl

/-- Witness for C5: indices 0 and 1025 are rejected with the range error,
and the all-empty dot string (decoded value 0) takes the same branch as
direct construction from 0. -/
theorem range_propagation_witness :
    DotPattern.fromIndex 0 = .error "Index 0 out of SLIP39 range (1-1024)" ∧
    DotPattern.fromIndex 1025 = .error "Index 1025 out of SLIP39 range (1-1024)" ∧
    DotPattern.fromDots "○○○○○○○○○○○○" = DotPattern.fromIndex 0 := by
  refine ⟨?_, ?_, ?_⟩
  · exact range_propagation.1 0 (Or.inl (by decide))
  · exact range_propagation.1 1025 (Or.inr (by decide))
  · have h := range_propagation.2 "○○○○○○○○○○○○" (by decide) (by decide)
      (Or.inl (by decide))
    have h0 : dotsDecodedValue "○○○○○○○○○○○○" = 0 := by decide
    rw [h0] at h
    exact h

/-! ### Validator claims -/

/-- C2: `validateBinary` accepts exactly the strings of length 12 over the
alphabet 0/1 whose first character is '0' and whose decoded base-2 value
lies in [1,1024]; every other string is rejected, and acceptance returns
the decoded value as the index with a null error. -/
theorem validator_exhaustive (s : String) :
    ((Validator.validateBinary (.str s)).isValid = true ↔
      (s.length = 12 ∧ (∀ c ∈ s.data, c = '0' ∨ c = '1') ∧
        s.data.head? = some '0' ∧ 1 ≤ parseBin s.data ∧ parseBin s.data ≤ 1024)) ∧
    ((Validator.validateBinary (.str s)).isValid = true →
      Validator.validateBinary (.str s) =
        ⟨true, none, some ((parseBin s.data : Nat) : Int)⟩) := by
  simp only [Validator.validateBinary]
  split_ifs with hA hB hC hD hE
  · subst hA
    refine ⟨⟨fun h => by simp at h, fun hR => absurd hR.1 (by decide)⟩,
      fun h => by simp at h⟩
  · exact ⟨⟨fun h => by simp at h, fun hR => absurd hR.1 hB⟩, fun h => by simp at h⟩
  · have hfalse : s.data.all (fun c => c == '0' || c == '1') = false := by
      simpa using hC
    rw [List.all_eq_false] at hfalse
    obtain ⟨c, hc, hne⟩ := hfalse
    refine ⟨⟨fun h => by simp at h, fun hR => ?_⟩, fun h => by simp at h⟩
    rcases hR.2.1 c hc with rfl | rfl <;> exact hne (by decide)
  · have hD' : s.data.head? = some '1' := by simpa using hD
    refine ⟨⟨fun h => by simp at h, fun hR => ?_⟩, fun h => by simp at h⟩
    rw [hD'] at hR
    exact absurd hR.2.2.1 (by decide)
  · refine ⟨⟨fun h => by simp at h, fun hR => ?_⟩, fun h => by simp at h⟩
    omega
  · have h12 : s.length = 12 := of_not_not hB
    have hall : ∀ c ∈ s.data, c = '0' ∨ c = '1' := by
      have htrue : s.data.all (fun c => c == '0' || c == '1') = true := by
        rcases Bool.eq_false_or_eq_true (s.data.all fun c => c == '0' || c == '1') with
          h | h
        · exact h
        · exact absurd (by rw [h]; rfl) hC
      rw [List.all_eq_true] at htrue
      intro c hc
      have := htrue c hc
      rcases Bool.or_eq_true_iff.mp this with h | h
      · exact Or.inl (by simpa using h)
      · exact Or.inr (by simpa using h)
    have hhead : s.data.head? = some '0' := by
      match hsd : s.data with
      | [] =>
        have : s.length = 0 := by
          show s.data.length = 0
          rw [hsd]
          rfl
        omega
      | c :: rest =>
        have hcmem : c ∈ s.data := by rw [hsd]; exact List.mem_cons_self c rest
        rcases hall c hcmem with rfl | rfl
        · rfl
        · exact absurd (by rw [hsd]; rfl) hD
    refine ⟨⟨fun _ => ⟨h12, hall, hhead, by omega, by omega⟩, fun _ => rfl⟩,
      fun _ => rfl⟩

/-- Witness for C2: the binary string for index 15 is accepted. -/
theorem validator_exhaustive_witness :
    (Validator.validateBinary (.str "000000001111")).isValid = true :=
  (validator_exhaustive "000000001111").1.mpr (by decide)

/-- C7: on a 12-character binary string whose first character is '1', the
first failing check in source order is the first-bit check, so the error
is the first-bit message while the index field still carries the decoded
(out-of-range) value. -/
theorem firstBit_check_order (s : String) (h12 : s.length = 12)
    (hbin : ∀ c ∈ s.data, c = '0' ∨ c = '1') (h1 : s.data.head? = some '1') :
    Validator.validateBinary (.str s) =
      ⟨false, some "First bit must be 0 for SLIP39", some ((parseBin s.data : Nat) : Int)⟩ := by
  have hA : s ≠ "" := by
    intro h
    rw [h] at h12
    exact absurd h12 (by decide)
  have hall : s.data.all (fun c => c == '0' || c == '1') = true := by
    rw [List.all_eq_true]
    intro c hc
    rcases hbin c hc with rfl | rfl <;> decide
  have hC : ¬ ((! s.data.all (fun c => c == '0' || c == '1')) = true) := by
    rw [hall]
    decide
  have hD : (s.data.head? == some '1') = true := by
    rw [h1]
    decide
  simp only [Validator.validateBinary]
  rw [if_neg hA, if_neg (show ¬ s.length ≠ 12 from fun h => h h12), if_neg hC,
    if_pos hD]

/-- Witness for C7, at the string "100000000000" (decoded value 2048). -/
theorem firstBit_check_order_witness :
    Validator.validateBinary (.str "100000000000") =
      ⟨false, some "First bit must be 0 for SLIP39", some 2048⟩ :=
  (firstBit_check_order "100000000000" (by decide) (by decide) (by decide)).trans
    (by decide)

/-- C8: `validateBinary` is total over every input value class, including
non-strings, null, undefined and the empty string: it always returns a
structured result, carrying an index on success and an error message on
failure, and never raises. -/
theorem validator_total :
    (∀ v : JSVal,
      ((Validator.validateBinary v).isValid = true ∧
        (Validator.validateBinary v).error = none ∧
        ((Validator.validateBinary v).index).isSome = true) ∨
      ((Validator.validateBinary v).isValid = false ∧
        ((Validator.validateBinary v).error).isSome = true)) ∧
    Validator.validateBinary .null =
      ⟨false, some "Binary must be a non-empty string", none⟩ ∧
    Validator.validateBinary .undefined =
      ⟨false, some "Binary must be a non-empty string", none⟩ ∧
    Validator.validateBinary (.str "") =
      ⟨false, some "Binary must be a non-empty string", none⟩ ∧
    Validator.validateBinary (.num 0) =
      ⟨false, some "Binary must be a non-empty string", none⟩ := by
  refine ⟨fun v => ?_, rfl, rfl, rfl, rfl⟩
  cases v with
  | str s =>
    simp only [Validator.validateBinary]
    split_ifs <;> simp
  | num n => exact Or.inr ⟨rfl, rfl⟩
  | boolean b => exact Or.inr ⟨rfl, rfl⟩
  | null => exact Or.inr ⟨rfl, rfl⟩
  | undefined => exact Or.inr ⟨rfl, rfl⟩

/-! ### Converter claims -/

theorem exceptToBool_ok {ε α : Type} (a : α) : (Except.ok a : Except ε α).toBool = true := rfl

theorem exceptToBool_error {ε α : Type} (e : ε) :
    (Except.error e : Except ε α).toBool = false := rfl

theorem exceptIsOk_ok {ε α : Type} (a : α) : (Except.ok a : Except ε α).isOk = true := rfl

theorem exceptIsOk_error {ε α : Type} (e : ε) :
    (Except.error e : Except ε α).isOk = false := rfl

theorem exceptToOption_ok {ε α : Type} (a : α) :
    (Except.ok a : Except ε α).toOption = some a := rfl

theorem exceptToOption_error {ε α : Type} (e : ε) :
    (Except.error e : Except ε α).toOption = none := rfl

theorem convertFold_spec (c : Converter) (ws : List String) :
    ∀ (n : Nat) (r : BatchResult),
      (List.enumFrom n ws).foldl (convertStep c) r =
        ⟨r.isValid && ws.all (fun w => (c.convertWordToDots w).isOk),
         r.wordCount,
         r.words ++ ws.filter (fun w => (c.convertWordToDots w).isOk),
         r.patterns ++ ws.filterMap (fun w => (c.convertWordToDots w).toOption),
         r.errors ++ (List.enumFrom n ws).filterMap
           (fun iw => match c.convertWordToDots iw.2 with
             | .ok _ => none
             | .error msg => some ⟨iw.1 + 1, iw.2, msg⟩)⟩ := by
  induction ws with
  | nil => intro n r; simp
  | cons w ws ih =>
    intro n r
    rw [List.enumFrom_cons, List.foldl_cons, ih (n + 1) (convertStep c r (n, w))]
    cases hw : c.convertWordToDots w with
    | ok conv =>
      simp [convertStep, hw, exceptIsOk_ok, exceptToOption_ok, exceptToBool_ok,
        List.filter_cons, List.filterMap_cons, List.all_cons, List.enumFrom_cons]
    | error msg =>
      simp [convertStep, hw, exceptIsOk_error, exceptToOption_error, exceptToBool_error,
        List.filter_cons, List.filterMap_cons, List.all_cons, List.enumFrom_cons]

theorem filterMap_toOption_length (c : Converter) (l : List String)
    (h : ∀ w ∈ l, (c.convertWordToDots w).isOk = true) :
    (l.filterMap (fun w => (c.convertWordToDots w).toOption)).length = l.length := by
  induction l with
  | nil => rfl
  | cons w ws ih =>
    have hw := h w (List.mem_cons_self w ws)
    rw [List.filterMap_cons]
    cases hcw : c.convertWordToDots w with
    | error e =>
      rw [hcw, exceptIsOk_error] at hw
      exact absurd hw (by decide)
    | ok conv =>
      simp only [hcw, exceptToOption_ok]
      rw [List.length_cons, ih (fun x hx => h x (List.mem_cons_of_mem _ hx)),
        List.length_cons]

theorem errors_nil_of_ok (c : Converter) (l : List String)
    (h : ∀ w ∈ l, (c.convertWordToDots w).isOk = true) :
    ∀ n : Nat, (List.enumFrom n l).filterMap
      (fun iw => match c.convertWordToDots iw.2 with
        | .ok _ => none
        | .error msg => some (⟨iw.1 + 1, iw.2, msg⟩ : BatchError)) = [] := by
  induction l with
  | nil => intro n; rfl
  | cons w ws ih =>
    intro n
    have hw := h w (List.mem_cons_self w ws)
    rw [List.enumFrom_cons, List.filterMap_cons]
    cases hcw : c.convertWordToDots w with
    | error e =>
      rw [hcw, exceptIsOk_error] at hw
      exact absurd hw (by decide)
    | ok conv =>
      simp only [hcw]
      exact ih (fun x hx => h x (List.mem_cons_of_mem _ hx)) (n + 1)

/-- C6 as amended: when exactly one word of the batch (at 1-based position
`pre.length + 1`) fails to resolve — its lower-cased form is neither an
own key of the reverse table nor an inherited `Object.prototype` property
name, so the lookup really yields `undefined` — and every other word
converts, `convertWithValidation` reports `isValid = false`, exactly one
error entry carrying that position and the offending word, the patterns of
the other words in input order (hence one fewer pattern than words), and
the full word count.  The un-amended claim (any word merely absent from
the wordlist) fails on the code: an absent word naming an inherited
`Object.prototype` member, such as "constructor", resolves to the truthy
inherited value and converts without any error. -/
theorem batch_single_error (c : Converter) (pre post : List String) (bad : String)
    (hbad : objGet c.reverseWordlist (jsToLowerCase bad) = .undefined)
    (hpre : ∀ w ∈ pre, (c.convertWordToDots w).isOk = true)
    (hpost : ∀ w ∈ post, (c.convertWordToDots w).isOk = true) :
    (c.convertWithValidation (.inr (pre ++ bad :: post))).isValid = false ∧
    (c.convertWithValidation (.inr (pre ++ bad :: post))).errors =
      [⟨pre.length + 1, bad, s!"Word \"{bad}\" not found in SLIP39 wordlist"⟩] ∧
    (c.convertWithValidation (.inr (pre ++ bad :: post))).patterns =
      (pre ++ post).filterMap (fun w => (c.convertWordToDots w).toOption) ∧
    (c.convertWithValidation (.inr (pre ++ bad :: post))).patterns.length =
      (pre ++ bad :: post).length - 1 ∧
    (c.convertWithValidation (.inr (pre ++ bad :: post))).wordCount =
      (pre ++ bad :: post).length := by
  have hbaderr : c.convertWordToDots bad =
      .error s!"Word \"{bad}\" not found in SLIP39 wordlist" := by
    rw [Converter.convertWordToDots, hbad]
  have hcv : c.convertWithValidation (.inr (pre ++ bad :: post)) =
      ⟨true && (pre ++ bad :: post).all (fun w => (c.convertWordToDots w).isOk),
       (pre ++ bad :: post).length,
       [] ++ (pre ++ bad :: post).filter (fun w => (c.convertWordToDots w).isOk),
       [] ++ (pre ++ bad :: post).filterMap (fun w => (c.convertWordToDots w).toOption),
       [] ++ (List.enumFrom 0 (pre ++ bad :: post)).filterMap
         (fun iw => match c.convertWordToDots iw.2 with
           | .ok _ => none
           | .error msg => some ⟨iw.1 + 1, iw.2, msg⟩)⟩ :=
    convertFold_spec c (pre ++ bad :: post) 0 ⟨true, (pre ++ bad :: post).length, [], [], []⟩
  rw [hcv]
  refine ⟨?_, ?_, ?_, ?_, rfl⟩
  · show (true && (pre ++ bad :: post).all fun w => (c.convertWordToDots w).isOk) = false
    rw [List.all_append, List.all_cons, hbaderr, exceptIsOk_error]
    simp
  · show ([] ++ (List.enumFrom 0 (pre ++ bad :: post)).filterMap
      (fun iw => match c.convertWordToDots iw.2 with
        | .ok _ => none
        | .error msg => some (⟨iw.1 + 1, iw.2, msg⟩ : BatchError))) =
      [⟨pre.length + 1, bad, s!"Word \"{bad}\" not found in SLIP39 wordlist"⟩]
    rw [List.nil_append, List.enumFrom_append, List.filterMap_append,
      errors_nil_of_ok c pre hpre 0, List.enumFrom_cons, List.filterMap_cons]
    simp only [hbaderr]
    rw [errors_nil_of_ok c post hpost (0 + pre.length + 1)]
    simp
  · show ([] ++ (pre ++ bad :: post).filterMap
      (fun w => (c.convertWordToDots w).toOption)) = _
    rw [List.nil_append, List.filterMap_append, List.filterMap_cons]
    simp only [hbaderr, exceptToOption_error]
    rw [← List.filterMap_append]
  · show ([] ++ (pre ++ bad :: post).filterMap
      (fun w => (c.convertWordToDots w).toOption)).length = _
    rw [List.nil_append, List.filterMap_append, List.filterMap_cons]
    simp only [hbaderr, exceptToOption_error]
    rw [List.length_append, filterMap_toOption_length c pre hpre,
      filterMap_toOption_length c post hpost, List.length_append, List.length_cons]
    omega

/-- Witness for C6: a three-word batch over a two-word wordlist, with the
unknown word in the middle. -/
theorem batch_single_error_witness :
    ((Converter.construct [("1", "academic"), ("2", "acid")]).convertWithValidation
      (.inr ["academic", "bogus", "acid"])).isValid = false ∧
    ((Converter.construct [("1", "academic"), ("2", "acid")]).convertWithValidation
      (.inr ["academic", "bogus", "acid"])).errors =
      [⟨2, "bogus", "Word \"bogus\" not found in SLIP39 wordlist"⟩] := by
  have h := batch_single_error (Converter.construct [("1", "academic"), ("2", "acid")])
    ["academic"] ["acid"] "bogus" (by decide) (by decide) (by decide)
  exact ⟨h.1, h.2.1⟩

/-- Counterexample to C6 as stated: over the wordlist {"1": "academic"}
the word "constructor" is absent from the wordlist and every other word of
["academic", "constructor"] resolves, yet the batch result has
`isValid = true`, no error entry, and two patterns (not N - 1 = 1),
because the reverse-table read `reverse["constructor"]` returns the
truthy function inherited from `Object.prototype`, so the `!index` guard
does not fire and `new DotPattern` does not throw on the non-numeric
value. -/
theorem batch_prototype_counterexample :
    ((Converter.construct [("1", "academic")]).wordlist.map
      (fun kv => kv.2)).contains "constructor" = false ∧
    ((Converter.construct [("1", "academic")]).convertWithValidation
      (.inr ["academic", "constructor"])).isValid = true ∧
    ((Converter.construct [("1", "academic")]).convertWithValidation
      (.inr ["academic", "constructor"])).errors = [] ∧
    ((Converter.construct [("1", "academic")]).convertWithValidation
      (.inr ["academic", "constructor"])).patterns.length = 2 := by
  refine ⟨by decide, by decide, by decide, by decide⟩

/-- C9 evaluation: the `Converter` constructor performs no validation at
all; constructing from the empty wordlist succeeds and yields a converter
with an empty reverse table instead of failing. -/
theorem construct_empty_succeeds : Converter.construct [] = ⟨[], []⟩ := rfl

theorem jsTrim_head_not_ws (l : List Char) (h : jsTrim l ≠ []) :
    ∃ c cs, jsTrim l = c :: cs ∧ c.isWhitespace = false := by
  set m := l.dropWhile Char.isWhitespace with hm
  obtain ⟨t, ht⟩ := List.dropWhile_suffix (l := m.reverse) Char.isWhitespace
  have hjt : jsTrim l = (m.reverse.dropWhile Char.isWhitespace).reverse := rfl
  cases hd : (m.reverse.dropWhile Char.isWhitespace).reverse with
  | nil => exact absurd (hjt.trans hd) h
  | cons c cs =>
    refine ⟨c, cs, hjt.trans hd, ?_⟩
    have hmval : m = (c :: cs) ++ t.reverse := by
      have hrev := congrArg List.reverse ht
      rw [List.reverse_append, List.reverse_reverse, hd] at hrev
      exact hrev.symm
    have hmhead : m.head? = some c := by rw [hmval]; rfl
    have hnws := List.head?_dropWhile_not Char.isWhitespace l
    rw [← hm, hmhead] at hnws
    exact hnws

theorem tokens_length_pos (p : Char → Bool) (c : Char) (cs : List Char)
    (hc : p c = false) :
    1 ≤ (((c :: cs).splitOnP p).filter (fun w => !w.isEmpty)).length := by
  rw [List.splitOnP_cons, if_neg (by rw [hc]; decide)]
  cases hsp : cs.splitOnP p with
  | nil => exact absurd hsp (List.splitOnP_ne_nil p cs)
  | cons hchunk tchunks =>
    rw [List.modifyHead_cons, List.filter_cons]
    simp

theorem jsTrimSplit_length (s : String) : 1 ≤ (jsTrimSplit s).length := by
  simp only [jsTrimSplit]
  by_cases h : jsTrim s.data = []
  · rw [if_pos (by rw [h]; rfl)]
    decide
  · obtain ⟨c, cs, hcc, hws⟩ := jsTrim_head_not_ws s.data h
    rw [hcc, if_neg (by simp), List.length_map]
    exact tokens_length_pos Char.isWhitespace c cs hws

/-- C10: a string mnemonic always splits into at least one word, so no
string input can produce `wordCount = 0`; and when the string is empty or
all whitespace the single word is the empty string, giving
`wordCount = 1`, `isValid = false` and exactly one error entry at position
1 whose word is the empty string. -/
theorem empty_mnemonic_batch (c : Converter)
    (hc : objGet c.reverseWordlist (jsToLowerCase "") = .undefined) :
    (∀ s : String, 1 ≤ (c.convertWithValidation (.inl s)).wordCount) ∧
    (∀ s : String, jsTrim s.data = [] →
      c.convertWithValidation (.inl s) =
        ⟨false, 1, [], [], [⟨1, "", "Word \"\" not found in SLIP39 wordlist"⟩]⟩) := by
  have hempty : c.convertWordToDots "" =
      .error "Word \"\" not found in SLIP39 wordlist" := by
    rw [Converter.convertWordToDots, hc]
    rfl
  constructor
  · intro s
    have hwc : (c.convertWithValidation (.inl s)).wordCount = (jsTrimSplit s).length := by
      show ((List.enumFrom 0 (jsTrimSplit s)).foldl (convertStep c)
        ⟨true, (jsTrimSplit s).length, [], [], []⟩).wordCount = (jsTrimSplit s).length
      rw [convertFold_spec c (jsTrimSplit s) 0]
    rw [hwc]
    exact jsTrimSplit_length s
  · intro s hnil
    have hsplit : jsTrimSplit s = [""] := by
      simp only [jsTrimSplit]
      rw [hnil]
      rfl
    show ((jsTrimSplit s).enum.foldl (convertStep c)
      ⟨true, (jsTrimSplit s).length, [], [], []⟩) =
      ⟨false, 1, [], [], [⟨1, "", "Word \"\" not found in SLIP39 wordlist"⟩]⟩
    rw [hsplit]
    show convertStep c ⟨true, 1, [], [], []⟩ (0, "") =
      ⟨false, 1, [], [], [⟨1, "", "Word \"\" not found in SLIP39 wordlist"⟩]⟩
    simp only [convertStep, hempty]
    rfl

/-- Witness for C10: the whitespace-only mnemonic "   " over a one-word
wordlist. -/
theorem empty_mnemonic_batch_witness :
    ((Converter.construct [("1", "academic")]).convertWithValidation
      (.inl "   ")).wordCount = 1 ∧
    (Converter.construct [("1", "academic")]).convertWithValidation (.inl "   ") =
      ⟨false, 1, [], [], [⟨1, "", "Word \"\" not found in SLIP39 wordlist"⟩]⟩ := by
  have h := empty_mnemonic_batch (Converter.construct [("1", "academic")]) (by decide)
  have h2 := h.2 "   " (by decide)
  constructor
  · rw [h2]
  · exact h2
